import Mathlib

/-!
Verification of the PayKuClient repository: a shallow embedding of the
PAYKU gateway client (`src/utils/payku.js`) and its serverless HTTP
handlers (`src/api/createTransaction.js`, `src/api/cancelTransaction.js`,
and the unnamed duplicate of the creation handler), together with proofs
about the request-signing canonicalization, the per-IP rate limiter and
the handlers' control flow.

JavaScript objects whose values are scalars are modelled as association
lists `List (String × String)` with pairwise-distinct keys (a hypothesis
where it matters); `Date.now()` is a `Nat` of epoch milliseconds; the
external Redis store is modelled by passing the stored value in and
returning the written value out; the axios transport is modelled by a
`GatewayOutcome` parameter.  HMAC-SHA256 is implemented executably over
byte lists (FIPS 180-4 / FIPS 198-1), so every definition evaluates.
-/

/-! ## SHA-256 and HMAC-SHA256 over byte lists -/

/-- Truncated 32-bit addition. -/
def add32 (a b : Nat) : Nat := (a + b) % 4294967296

/-- Right rotation of a 32-bit word by `n` bits. -/
def rotr32 (n x : Nat) : Nat := ((x >>> n) ||| ((x <<< (32 - n)) % 4294967296)) % 4294967296

/-- The eight SHA-256 initial hash values. -/
def shaH0 : List Nat :=
  [1779033703, 3144134277, 1013904242, 2773480762,
   1359893119, 2600822924, 528734635, 1541459225]

/-- The 64 SHA-256 round constants. -/
def shaK : List Nat :=
  [1116352408, 1899447441, 3049323471, 3921009573, 961987163, 1508970993,
   2453635748, 2870763221, 3624381080, 310598401, 607225278, 1426881987,
   1925078388, 2162078206, 2614888103, 3248222580, 3835390401, 4022224774,
   264347078, 604807628, 770255983, 1249150122, 1555081692, 1996064986,
   2554220882, 2821834349, 2952996808, 3210313671, 3336571891, 3584528711,
   113926993, 338241895, 666307205, 773529912, 1294757372, 1396182291,
   1695183700, 1986661051, 2177026350, 2456956037, 2730485921, 2820302411,
   3259730800, 3345764771, 3516065817, 3600352804, 4094571909, 275423344,
   430227734, 506948616, 659060556, 883997877, 958139571, 1322822218,
   1537002063, 1747873779, 1955562222, 2024104815, 2227730452, 2361852424,
   2428436474, 2756734187, 3204031479, 3329325298]

/-- SHA-256 big sigma-0. -/
def bigSigma0 (x : Nat) : Nat := rotr32 2 x ^^^ rotr32 13 x ^^^ rotr32 22 x

/-- SHA-256 big sigma-1. -/
def bigSigma1 (x : Nat) : Nat := rotr32 6 x ^^^ rotr32 11 x ^^^ rotr32 25 x

/-- SHA-256 small sigma-0. -/
def smallSigma0 (x : Nat) : Nat := rotr32 7 x ^^^ rotr32 18 x ^^^ (x >>> 3)

/-- SHA-256 small sigma-1. -/
def smallSigma1 (x : Nat) : Nat := rotr32 17 x ^^^ rotr32 19 x ^^^ (x >>> 10)

/-- SHA-256 choice function; the complement is a xor with the 32-bit mask. -/
def chFun (x y z : Nat) : Nat := (x &&& y) ^^^ ((x ^^^ 0xffffffff) &&& z)

/-- SHA-256 majority function. -/
def majFun (x y z : Nat) : Nat := (x &&& y) ^^^ (x &&& z) ^^^ (y &&& z)

/-- Group a byte list into big-endian 32-bit words. -/
def bytesToWords : List Nat → List Nat
  | b0 :: b1 :: b2 :: b3 :: rest =>
      (b0 * 16777216 + b1 * 65536 + b2 * 256 + b3) :: bytesToWords rest
  | _ => []

/-- Extend the 16-word block to the 64-word message schedule, one word per step. -/
def extendSchedule : Nat → List Nat → List Nat
  | 0, w => w
  | n + 1, w =>
      let i := w.length
      let wi := add32 (add32 (smallSigma1 (w.getD (i - 2) 0)) (w.getD (i - 7) 0))
                      (add32 (smallSigma0 (w.getD (i - 15) 0)) (w.getD (i - 16) 0))
      extendSchedule n (w ++ [wi])

/-- One SHA-256 compression round on the state `[a,b,c,d,e,f,g,h]`. -/
def compressStep (st : List Nat) (kw : Nat × Nat) : List Nat :=
  match st with
  | [a, b, c, d, e, f, g, h] =>
      let t1 := add32 h (add32 (bigSigma1 e) (add32 (chFun e f g) (add32 kw.1 kw.2)))
      let t2 := add32 (bigSigma0 a) (majFun a b c)
      [add32 t1 t2, a, b, c, add32 d t1, e, f, g]
  | other => other

/-- Process one 64-byte block into the running hash state. -/
def processBlock (hs : List Nat) (block : List Nat) : List Nat :=
  let w := extendSchedule 48 (bytesToWords block)
  let st := (shaK.zip w).foldl compressStep hs
  List.zipWith add32 hs st

/-- The 64-bit big-endian length field of the SHA-256 padding. -/
def lenBytes64 (n : Nat) : List Nat :=
  [(n >>> 56) &&& 255, (n >>> 48) &&& 255, (n >>> 40) &&& 255, (n >>> 32) &&& 255,
   (n >>> 24) &&& 255, (n >>> 16) &&& 255, (n >>> 8) &&& 255, n &&& 255]

/-- SHA-256 padding: a `0x80` byte, zeros to 56 mod 64, then the bit length. -/
def padMessage (msg : List Nat) : List Nat :=
  msg ++ 0x80 :: List.replicate ((119 - msg.length % 64) % 64) 0 ++ lenBytes64 (8 * msg.length)

/-- Split a byte list into successive 64-byte chunks. -/
def chunks64 (l : List Nat) : List (List Nat) :=
  if h : l = [] then [] else l.take 64 :: chunks64 (l.drop 64)
termination_by l.length
decreasing_by
  simp only [List.length_drop]
  have : 0 < l.length := List.length_pos.mpr h
  omega

/-- Big-endian bytes of a 32-bit word. -/
def wordBytes (w : Nat) : List Nat :=
  [(w >>> 24) &&& 255, (w >>> 16) &&& 255, (w >>> 8) &&& 255, w &&& 255]

/-- SHA-256 of a byte list, as a 32-byte list. -/
def sha256 (msg : List Nat) : List Nat :=
  (((chunks64 (padMessage msg)).foldl processBlock shaH0).map wordBytes).flatten

/-- HMAC-SHA256 (FIPS 198-1) of a message under a key, both byte lists. -/
def hmacSha256 (key msg : List Nat) : List Nat :=
  let k0 := if 64 < key.length then sha256 key else key
  let kp := k0 ++ List.replicate (64 - k0.length) 0
  sha256 ((kp.map (fun b => b ^^^ 92)) ++ sha256 ((kp.map (fun b => b ^^^ 54)) ++ msg))

/-- UTF-8 encoding of a single code point. -/
def utf8EncodeNat (c : Nat) : List Nat :=
  if c < 128 then [c]
  else if c < 2048 then [192 + c / 64, 128 + c % 64]
  else if c < 65536 then [224 + c / 4096, 128 + (c / 64) % 64, 128 + c % 64]
  else [240 + c / 262144, 128 + (c / 4096) % 64, 128 + (c / 64) % 64, 128 + c % 64]

/-- UTF-8 bytes of a string, matching what Node's `hmac.update(string)` hashes. -/
def strBytes (s : String) : List Nat := (s.data.map (fun c => utf8EncodeNat c.toNat)).flatten

/-- Lowercase hexadecimal digit for a value below 16. -/
def hexDigit (n : Nat) : Char := if n < 10 then Char.ofNat (48 + n) else Char.ofNat (87 + n)

/-- Lowercase hexadecimal rendering of a byte list, as `digest('hex')` does. -/
def bytesToHex (bs : List Nat) : String :=
  String.mk ((bs.map (fun b => [hexDigit (b / 16), hexDigit (b % 16)])).flatten)

/-- Lowercase hex HMAC-SHA256 of a message string under a secret string. -/
def hmacSha256Hex (secret msg : String) : String :=
  bytesToHex (hmacSha256 (strBytes secret) (strBytes msg))

/-! ## Byte-wise string comparison (the order `Array.prototype.sort()` uses on keys) -/

/-- Lexicographic comparison of character lists by code point. -/
def charsLe : List Char → List Char → Bool
  | [], _ => true
  | _ :: _, [] => false
  | a :: as, b :: bs =>
      if a.toNat < b.toNat then true
      else if b.toNat < a.toNat then false
      else charsLe as bs

/-- Lexicographic code-point comparison of strings. -/
def strLe (a b : String) : Bool := charsLe a.data b.data

theorem char_toNat_inj {a b : Char} (h : a.toNat = b.toNat) : a = b :=
  Char.ext (UInt32.ext h)

theorem charsLe_total : ∀ a b : List Char, charsLe a b = true ∨ charsLe b a = true
  | [], _ => Or.inl rfl
  | _ :: _, [] => Or.inr rfl
  | a :: as, b :: bs => by
      rcases Nat.lt_trichotomy a.toNat b.toNat with h | h | h
      · exact Or.inl (by simp [charsLe, h])
      · have := charsLe_total as bs
        rcases this with h2 | h2
        · exact Or.inl (by simp [charsLe, h, h2])
        · exact Or.inr (by simp [charsLe, h, h2])
      · exact Or.inr (by simp [charsLe, h])

theorem charsLe_antisymm : ∀ a b : List Char, charsLe a b = true → charsLe b a = true → a = b
  | [], [], _, _ => rfl
  | [], _ :: _, _, h2 => by simp [charsLe] at h2
  | _ :: _, [], h1, _ => by simp [charsLe] at h1
  | a :: as, b :: bs, h1, h2 => by
      rcases Nat.lt_trichotomy a.toNat b.toNat with h | h | h
      · simp [charsLe, h, Nat.lt_asymm h] at h2
      · have hab : a = b := char_toNat_inj h
        have h1' : charsLe as bs = true := by
          simpa [charsLe, h, Nat.lt_irrefl] using h1
        have h2' : charsLe bs as = true := by
          simpa [charsLe, h.symm, Nat.lt_irrefl] using h2
        rw [hab, charsLe_antisymm as bs h1' h2']
      · simp [charsLe, h, Nat.lt_asymm h] at h1

theorem charsLe_trans : ∀ a b c : List Char,
    charsLe a b = true → charsLe b c = true → charsLe a c = true
  | [], _, _, _, _ => rfl
  | _ :: _, [], _, h1, _ => by simp [charsLe] at h1
  | _ :: _, _ :: _, [], _, h2 => by simp [charsLe] at h2
  | a :: as, b :: bs, c :: cs, h1, h2 => by
      rcases Nat.lt_trichotomy a.toNat b.toNat with hab | hab | hab
      · rcases Nat.lt_trichotomy b.toNat c.toNat with hbc | hbc | hbc
        · simp [charsLe, Nat.lt_trans hab hbc]
        · simp [charsLe, hbc ▸ hab]
        · simp [charsLe, hbc, Nat.lt_asymm hbc] at h2
      · rcases Nat.lt_trichotomy b.toNat c.toNat with hbc | hbc | hbc
        · simp [charsLe, hab ▸ hbc]
        · have h1' : charsLe as bs = true := by
            simpa [charsLe, hab, Nat.lt_irrefl] using h1
          have h2' : charsLe bs cs = true := by
            simpa [charsLe, hbc, Nat.lt_irrefl] using h2
          have hac : a.toNat = c.toNat := hab.trans hbc
          simp [charsLe, hac, Nat.lt_irrefl, charsLe_trans as bs cs h1' h2']
        · simp [charsLe, hbc, Nat.lt_asymm hbc] at h2
      · simp [charsLe, hab, Nat.lt_asymm hab] at h1

theorem strLe_total (a b : String) : strLe a b = true ∨ strLe b a = true :=
  charsLe_total a.data b.data

theorem strLe_antisymm {a b : String} (h1 : strLe a b = true) (h2 : strLe b a = true) : a = b :=
  String.ext (charsLe_antisymm a.data b.data h1 h2)

theorem strLe_trans {a b c : String} (h1 : strLe a b = true) (h2 : strLe b c = true) :
    strLe a c = true :=
  charsLe_trans a.data b.data c.data h1 h2

/-! ## JavaScript object model: association lists with string keys -/

/-- A JavaScript object with scalar values, coerced to strings as template
literals do; keys are pairwise distinct in any object produced by JS. -/
abbrev Obj := List (String × String)

/-- Property read `m[k]`: the value at the first matching key. -/
def lookupObj : Obj → String → Option String
  | [], _ => none
  | (k, v) :: rest, key => if k = key then some v else lookupObj rest key

/-- Spread-update `{...m, key: val}`: replace the value in place if the key
is present, else append the new entry. -/
def objInsert : Obj → String → String → Obj
  | [], key, val => [(key, val)]
  | (k, v) :: rest, key, val =>
      if k = key then (k, val) :: rest else (k, v) :: objInsert rest key val

/-- The key list of an object, in insertion order (`Object.keys`). -/
def objKeys (m : Obj) : List String := m.map Prod.fst

/-- Key order used by `Object.keys(payload).sort()`. -/
def strLeP (a b : String) : Prop := strLe a b = true

/-- Entry order by key, used to sort whole entries. -/
def keyLeP (a b : String × String) : Prop := strLe a.1 b.1 = true

instance : DecidableRel strLeP := fun a b => instDecidableEqBool (strLe a b) true

instance : DecidableRel keyLeP := fun a b => instDecidableEqBool (strLe a.1 b.1) true

instance : IsTotal String strLeP := ⟨fun a b => strLe_total a b⟩

instance : IsTrans String strLeP := ⟨fun _ _ _ => strLe_trans⟩

instance : IsTotal (String × String) keyLeP := ⟨fun a b => strLe_total a.1 b.1⟩

instance : IsTrans (String × String) keyLeP := ⟨fun _ _ _ => strLe_trans⟩

/-- Sort a key list as `Array.prototype.sort()` does on strings. -/
def sortStrings (l : List String) : List String := List.insertionSort strLeP l

/-- Sort object entries by key. -/
def sortPairs (m : Obj) : Obj := List.insertionSort keyLeP m

/-! ## The gateway client (`src/utils/payku.js`) -/

/-- The join `parts.join('&')` of `Array.prototype.join`. -/
def joinAmp : List String → String
  | [] => ""
  | [s] => s
  | s :: rest => s ++ "&" ++ joinAmp rest

/-- The string a signature is computed over: keys of the payload sorted,
entries rendered `key=value` and joined with `&`, with no escaping
(`PaykuClient.generateSignature`, src/utils/payku.js lines 36-41). -/
def stringToSign (payload : Obj) : String :=
  joinAmp ((sortStrings (objKeys payload)).map
    (fun k => k ++ "=" ++ (lookupObj payload k).getD "undefined"))

/-- HMAC-SHA256 hex signature of the sorted payload string
(`PaykuClient.generateSignature`). -/
def generateSignature (secretKey : String) (payload : Obj) : String :=
  hmacSha256Hex secretKey (stringToSign payload)

/-- The three outbound headers (`PaykuClient.prepareHeaders`). -/
structure SignedHeaders where
  xApiKey : String
  xTimestamp : String
  xSignature : String
deriving DecidableEq

/-- Headers for a call: fresh timestamp string, signature over a copy of
the payload with the timestamp merged in
(`PaykuClient.prepareHeaders`, src/utils/payku.js lines 54-64). -/
def prepareHeaders (apiKey secretKey : String) (payload : Obj) (now : Nat) : SignedHeaders :=
  let timestamp := toString now
  { xApiKey := apiKey
    xTimestamp := timestamp
    xSignature := generateSignature secretKey (objInsert payload "timestamp" timestamp) }

/-- A constructed gateway client (`PaykuClient` instance fields). -/
structure PaykuClient where
  apiKey : String
  secretKey : String
  baseURL : String
deriving DecidableEq

/-- Result of running the `PaykuClient` constructor. -/
inductive ClientResult where
  | ok (c : PaykuClient)
  | configError (msg : String)
deriving DecidableEq

/-- Whether a construction attempt raised the configuration error. -/
def isConfigError : ClientResult → Bool
  | .configError _ => true
  | .ok _ => false

/-- JavaScript string falsiness: `undefined` and the empty string are falsy. -/
def strFalsy : Option String → Bool
  | none => true
  | some s => decide (s = "")

/-- The `PaykuClient` constructor: throws when `apiKey` or `secretKey` is
falsy, otherwise builds the instance with the default base URL
(src/utils/payku.js lines 17-28). -/
def mkPaykuClient (apiKey secretKey baseURL : Option String) : ClientResult :=
  if strFalsy apiKey || strFalsy secretKey then
    .configError "apiKey and secretKey are required"
  else
    .ok { apiKey := apiKey.getD "", secretKey := secretKey.getD ""
          baseURL := baseURL.getD "https://payku.my.id/api" }

/-- HTTP methods as handled by the code. -/
inductive Method where
  | GET
  | POST
  | OPTIONS
  | PUT
deriving DecidableEq

/-- An outbound HTTP request the client hands to axios. -/
structure OutRequest where
  endpoint : String
  method : Method
  headers : SignedHeaders
  body : Option Obj
deriving DecidableEq

/-- Outbound POST of `PaykuClient.createTransaction`: signs the payload,
transmits the payload object itself as the body. -/
def PaykuClient.createTransaction (c : PaykuClient) (data : Obj) (now : Nat) : OutRequest :=
  { endpoint := "/create-transaction"
    method := .POST
    headers := prepareHeaders c.apiKey c.secretKey data now
    body := some data }

/-- Outbound GET of `PaykuClient.getTransaction`: empty payload signature. -/
def PaykuClient.getTransaction (c : PaykuClient) (transactionId : String) (now : Nat) :
    OutRequest :=
  { endpoint := "/transaction/" ++ transactionId
    method := .GET
    headers := prepareHeaders c.apiKey c.secretKey [] now
    body := none }

/-- Outbound POST of `PaykuClient.cancelTransaction`: derived payload
`{ transaction_id: transactionId }`. -/
def PaykuClient.cancelTransaction (c : PaykuClient) (transactionId : String) (now : Nat) :
    OutRequest :=
  { endpoint := "/transaction/" ++ transactionId ++ "/cancel"
    method := .POST
    headers := prepareHeaders c.apiKey c.secretKey [("transaction_id", transactionId)] now
    body := some [("transaction_id", transactionId)] }

/-- Outbound POST of `PaykuClient.withdraw`. -/
def PaykuClient.withdraw (c : PaykuClient) (data : Obj) (now : Nat) : OutRequest :=
  { endpoint := "/withdraw"
    method := .POST
    headers := prepareHeaders c.apiKey c.secretKey data now
    body := some data }

/-- Outbound GET of `PaykuClient.getAccount`. -/
def PaykuClient.getAccount (c : PaykuClient) (userId : String) (now : Nat) : OutRequest :=
  { endpoint := "/account/" ++ userId
    method := .GET
    headers := prepareHeaders c.apiKey c.secretKey [] now
    body := none }

/-- Outbound POST of `PaykuClient.transfer`. -/
def PaykuClient.transfer (c : PaykuClient) (data : Obj) (now : Nat) : OutRequest :=
  { endpoint := "/transfer"
    method := .POST
    headers := prepareHeaders c.apiKey c.secretKey data now
    body := some data }

/-! ## Spec-side canonicalization (for the refinement claims)

The following definition is written from the specification's words for
Variant A, independently of the code path above: add a `timestamp` field
holding the epoch-milliseconds as a string, sort all resulting entries
lexicographically by key, join the sorted entries as
`key1=value1&key2=value2&...`, with no escaping. -/

/-- Variant A canonical string, built by sorting whole entries (the spec's
formulation), not by sorting the key array and reading values back. -/
def variantACanonical (payload : Obj) (ts : String) : String :=
  joinAmp ((sortPairs (objInsert payload "timestamp" ts)).map
    (fun kv => kv.1 ++ "=" ++ kv.2))

/-- Variant A signature per the spec: lowercase hex HMAC-SHA256 of the
canonical string under the secret key. -/
def variantASignature (secretKey : String) (payload : Obj) (ts : String) : String :=
  hmacSha256Hex secretKey (variantACanonical payload ts)

/-! ## Rate limiter and HTTP handlers -/

/-- The creation endpoint's rate-limit interval in milliseconds. -/
def RATE_LIMIT_INTERVAL : Nat := 60 * 1000

/-- Outcome of one rate-limit check: whether the request may proceed, the
`Retry-After` seconds on denial, and the `(value, ttlSeconds)` written to
the store on success. -/
structure RateDecision where
  allowed : Bool
  retryAfterSeconds : Option Nat
  write : Option (Nat × Nat)
deriving DecidableEq

/-- The rate-limit logic of the creation handler
(src/api/createTransaction.js lines 35-51): deny while the elapsed time
since the stored timestamp is below the interval, else allow and store
`now` with a TTL of `Math.ceil(RATE_LIMIT_INTERVAL / 1000)` seconds.
`Math.ceil` of a division by 1000 is modelled as `(x + 999) / 1000`. -/
def rateLimitStep (stored : Option Nat) (now : Nat) : RateDecision :=
  match stored with
  | some last =>
      let elapsed := now - last
      if elapsed < RATE_LIMIT_INTERVAL then
        { allowed := false
          retryAfterSeconds := some ((RATE_LIMIT_INTERVAL - elapsed + 999) / 1000)
          write := none }
      else
        { allowed := true, retryAfterSeconds := none
          write := some (now, (RATE_LIMIT_INTERVAL + 999) / 1000) }
  | none =>
      { allowed := true, retryAfterSeconds := none
        write := some (now, (RATE_LIMIT_INTERVAL + 999) / 1000) }

/-- JavaScript `x || d` on an optional number: `undefined` and `0` are falsy. -/
def jsOr (v : Option Nat) (d : Nat) : Nat :=
  match v with
  | none => d
  | some n => if n = 0 then d else n

/-- JavaScript `x || d` on an optional string: `undefined` and `''` are falsy. -/
def jsOrS (v : Option String) (d : String) : String :=
  match v with
  | none => d
  | some s => if s = "" then d else s

/-- The rate-limit identity: the forwarded-for header if truthy, else the
socket address (`req.headers['x-forwarded-for'] || req.socket.remoteAddress`). -/
def identityOf (forwardedFor : Option String) (remoteAddr : String) : String :=
  jsOrS forwardedFor remoteAddr

/-- Environment configuration for a handler (`process.env` values). -/
structure Env where
  apiKey : Option String
  secretKey : Option String
deriving DecidableEq

/-- Outcome of the awaited gateway call, as the handler's `catch` sees it:
either a parsed response body, or an error carrying an optional
`statusCode` and a `message`. -/
inductive GatewayOutcome where
  | success (respBody : Obj)
  | failure (statusCode : Option Nat) (message : String)
deriving DecidableEq

/-- The JSON body a handler responds with. -/
inductive RespBody where
  | empty
  | json (o : Obj)
  | errorJson (msg : String)
deriving DecidableEq

/-- Observable result of one handler invocation: status, body, CORS flag,
`Retry-After` header, the `(key, value, ttlSeconds)` written to the store,
and whether the outbound gateway call was attempted. -/
structure HandlerResult where
  status : Nat
  body : RespBody
  corsSet : Bool
  retryAfter : Option Nat
  storeWrite : Option (String × Nat × Nat)
  gatewayCalled : Bool
  gatewayPayload : Option Obj
deriving DecidableEq

/-- The transaction-creation handler (src/api/createTransaction.js and its
unnamed duplicate src/unnamed/part_000, which differ only in logging):
CORS headers always; OPTIONS short-circuits with 200; non-POST gets 405;
then the per-IP rate limit runs, the store is written on allowance, the
client is constructed from the environment, and the gateway call's outcome
is returned, with `error.statusCode || 500` and
`error.message || 'Internal Server Error'` on a caught error.  The body is
never validated. -/
def createTransactionHandler (method : Method) (forwardedFor : Option String)
    (remoteAddr : String) (reqBody : Obj) (stored : Option Nat) (now : Nat)
    (env : Env) (gw : GatewayOutcome) : HandlerResult :=
  if method = .OPTIONS then
    { status := 200, body := .empty, corsSet := true, retryAfter := none
      storeWrite := none, gatewayCalled := false, gatewayPayload := none }
  else if method ≠ .POST then
    { status := 405, body := .errorJson "Method Not Allowed", corsSet := true
      retryAfter := none, storeWrite := none, gatewayCalled := false
      gatewayPayload := none }
  else
    let key := "rate_limit:" ++ identityOf forwardedFor remoteAddr
    let rl := rateLimitStep stored now
    if rl.allowed = false then
      { status := 429
        body := .errorJson ("Tunggu " ++ toString (rl.retryAfterSeconds.getD 0) ++
          " detik sebelum mencoba lagi.")
        corsSet := true, retryAfter := rl.retryAfterSeconds
        storeWrite := none, gatewayCalled := false, gatewayPayload := none }
    else
      let write := rl.write.map (fun wv => (key, wv.1, wv.2))
      if strFalsy env.apiKey || strFalsy env.secretKey then
        { status := 500, body := .errorJson "apiKey and secretKey are required"
          corsSet := true, retryAfter := none, storeWrite := write
          gatewayCalled := false, gatewayPayload := none }
      else
        match gw with
        | .success respBody =>
            { status := 200, body := .json respBody, corsSet := true
              retryAfter := none, storeWrite := write, gatewayCalled := true
              gatewayPayload := some reqBody }
        | .failure sc msg =>
            { status := jsOr sc 500
              body := .errorJson (if msg = "" then "Internal Server Error" else msg)
              corsSet := true, retryAfter := none, storeWrite := write
              gatewayCalled := true, gatewayPayload := some reqBody }

/-- The cancel-transaction handler (src/api/cancelTransaction.js): CORS
headers always; any non-POST method (OPTIONS included) gets 405; a missing
or empty `id` query parameter gets 400 with no gateway call; a caught
error is always reported as 500 with `error.message`. -/
def cancelTransactionHandler (method : Method) (idQuery : Option String)
    (env : Env) (gw : GatewayOutcome) : HandlerResult :=
  if method ≠ .POST then
    { status := 405, body := .errorJson "Method Not Allowed", corsSet := true
      retryAfter := none, storeWrite := none, gatewayCalled := false
      gatewayPayload := none }
  else if strFalsy idQuery then
    { status := 400, body := .errorJson "Missing transaction id", corsSet := true
      retryAfter := none, storeWrite := none, gatewayCalled := false
      gatewayPayload := none }
  else if strFalsy env.apiKey || strFalsy env.secretKey then
    { status := 500, body := .errorJson "apiKey and secretKey are required"
      corsSet := true, retryAfter := none, storeWrite := none
      gatewayCalled := false, gatewayPayload := none }
  else
    match gw with
    | .success respBody =>
        { status := 200, body := .json respBody, corsSet := true
          retryAfter := none, storeWrite := none, gatewayCalled := true
          gatewayPayload := some [("transaction_id", idQuery.getD "")] }
    | .failure _ msg =>
        { status := 500, body := .errorJson msg, corsSet := true
          retryAfter := none, storeWrite := none, gatewayCalled := true
          gatewayPayload := some [("transaction_id", idQuery.getD "")] }

/-! ## Sorting and lookup lemmas -/

theorem map_fst_orderedInsert (p : String × String) :
    ∀ l : Obj, (List.orderedInsert keyLeP p l).map Prod.fst =
      List.orderedInsert strLeP p.1 (l.map Prod.fst)
  | [] => rfl
  | q :: rest => by
      by_cases h : strLe p.1 q.1 = true
      · simp [List.orderedInsert, keyLeP, strLeP, h]
      · simp [List.orderedInsert, keyLeP, strLeP, h, map_fst_orderedInsert p rest]

theorem map_fst_sortPairs : ∀ m : Obj, (sortPairs m).map Prod.fst = sortStrings (objKeys m)
  | [] => rfl
  | p :: rest => by
      simp only [sortPairs, sortStrings, objKeys, List.insertionSort, List.map_cons]
      rw [map_fst_orderedInsert]
      have := map_fst_sortPairs rest
      simp only [sortPairs, sortStrings, objKeys] at this
      rw [this]

theorem sortPairs_perm (m : Obj) : (sortPairs m).Perm m :=
  List.perm_insertionSort keyLeP m

theorem sortPairs_sorted (m : Obj) : List.Pairwise keyLeP (sortPairs m) :=
  List.sorted_insertionSort keyLeP m

theorem mem_sortPairs {kv : String × String} {m : Obj} : kv ∈ sortPairs m ↔ kv ∈ m :=
  (sortPairs_perm m).mem_iff

theorem lookupObj_eq_some_of_mem :
    ∀ {m : Obj} {kv : String × String}, (objKeys m).Nodup → kv ∈ m →
      lookupObj m kv.1 = some kv.2
  | [], _, _, hm => absurd hm (List.not_mem_nil _)
  | (k, v) :: rest, kv, hn, hm => by
      simp only [objKeys, List.map_cons, List.nodup_cons] at hn
      rcases List.mem_cons.mp hm with h | h
      · subst h
        simp [lookupObj]
      · have hk : k ≠ kv.1 := by
          intro hk
          exact hn.1 (hk ▸ List.mem_map.mpr ⟨kv, h, rfl⟩)
        have := @lookupObj_eq_some_of_mem rest kv hn.2 h
        simpa [lookupObj, hk] using this

theorem lookupObj_eq_none :
    ∀ {m : Obj} {k : String}, k ∉ objKeys m → lookupObj m k = none
  | [], _, _ => rfl
  | (k', v') :: rest, k, h => by
      simp only [objKeys, List.map_cons, List.mem_cons] at h
      push_neg at h
      have hk' : k' ≠ k := fun e => h.1 e.symm
      have := @lookupObj_eq_none rest k (by
        intro hmem
        exact h.2 hmem)
      simpa [lookupObj, hk'] using this

theorem objInsert_not_mem :
    ∀ {m : Obj} {k : String} (v : String), k ∉ objKeys m → objInsert m k v = m ++ [(k, v)]
  | [], _, _, _ => rfl
  | (k', v') :: rest, k, v, h => by
      simp only [objKeys, List.map_cons, List.mem_cons] at h
      push_neg at h
      have hne : k' ≠ k := fun hk => h.1 hk.symm
      simp [objInsert, hne, objInsert_not_mem v (fun hm => h.2 hm)]

theorem objKeys_objInsert_mem :
    ∀ {m : Obj} {k : String} (v : String), k ∈ objKeys m →
      objKeys (objInsert m k v) = objKeys m
  | [], _, _, h => absurd h (List.not_mem_nil _)
  | (k', v') :: rest, k, v, h => by
      by_cases hk : k' = k
      · simp [objInsert, hk, objKeys]
      · simp only [objKeys, List.map_cons, List.mem_cons] at h
        rcases h with h | h
        · exact absurd h.symm hk
        · have := @objKeys_objInsert_mem rest k v h
          simp only [objKeys] at this
          simp [objInsert, hk, objKeys, this]

theorem nodup_keys_objInsert {m : Obj} {k v : String} (h : (objKeys m).Nodup) :
    (objKeys (objInsert m k v)).Nodup := by
  by_cases hk : k ∈ objKeys m
  · rw [objKeys_objInsert_mem v hk]
    exact h
  · rw [objInsert_not_mem v hk]
    simp only [objKeys, List.map_append, List.map_cons, List.map_nil]
    rw [List.nodup_append]
    refine ⟨h, List.nodup_singleton k, fun a ha hb => ?_⟩
    have hak : a = k := by simpa using hb
    exact hk (hak ▸ ha)

theorem lookupObj_objInsert_self :
    ∀ (m : Obj) (k v : String), lookupObj (objInsert m k v) k = some v
  | [], k, v => by simp [objInsert, lookupObj]
  | (k', v') :: rest, k, v => by
      by_cases hk : k' = k
      · simp [objInsert, hk, lookupObj]
      · simp [objInsert, hk, lookupObj, lookupObj_objInsert_self rest k v]

theorem stringToSign_eq_entryJoin {m : Obj} (h : (objKeys m).Nodup) :
    stringToSign m = joinAmp ((sortPairs m).map (fun kv => kv.1 ++ "=" ++ kv.2)) := by
  unfold stringToSign
  rw [← map_fst_sortPairs, List.map_map]
  congr 1
  apply List.map_congr_left
  intro kv hkv
  have hmem : kv ∈ m := mem_sortPairs.mp hkv
  have := lookupObj_eq_some_of_mem h hmem
  simp [Function.comp, this]

/-! ## Canonical-string structure lemmas -/

theorem data_amp : ("&" : String).data = ['&'] := rfl

theorem data_eqsign : ("=" : String).data = ['='] := rfl

theorem joinAmp_data :
    ∀ parts : List String, (joinAmp parts).data = List.intercalate ['&'] (parts.map String.data)
  | [] => by simp [joinAmp, List.intercalate, List.intersperse]
  | [s] => by simp [joinAmp, List.intercalate, List.intersperse]
  | s :: t :: rest => by
      have ih := joinAmp_data (t :: rest)
      show (s ++ "&" ++ joinAmp (t :: rest)).data = _
      simp only [String.data_append, data_amp, ih, List.map_cons, List.intercalate,
        List.intersperse_cons_cons, List.flatten_cons, List.intersperse]
      simp [List.append_assoc]

theorem append_cons_sep_inj {sep : Char} :
    ∀ (a c b d : List Char), sep ∉ a → sep ∉ c →
      a ++ sep :: b = c ++ sep :: d → a = c ∧ b = d
  | [], [], b, d, _, _, h => by simpa using h
  | [], x :: c', b, d, _, hc, h => by
      simp only [List.nil_append, List.cons_append, List.cons.injEq] at h
      rw [List.mem_cons] at hc
      push_neg at hc
      exact absurd h.1 hc.1
  | x :: a', [], b, d, ha, _, h => by
      simp only [List.nil_append, List.cons_append, List.cons.injEq] at h
      rw [List.mem_cons] at ha
      push_neg at ha
      exact absurd h.1.symm ha.1
  | x :: a', y :: c', b, d, ha, hc, h => by
      simp only [List.cons_append, List.cons.injEq] at h
      have ha' : sep ∉ a' := fun hm => ha (List.mem_cons_of_mem x hm)
      have hc' : sep ∉ c' := fun hm => hc (List.mem_cons_of_mem y hm)
      have := append_cons_sep_inj a' c' b d ha' hc' h.2
      exact ⟨by rw [h.1, this.1], this.2⟩

theorem entry_data (k v : String) :
    (k ++ "=" ++ v).data = k.data ++ '=' :: v.data := by
  simp [String.data_append, data_eqsign]

theorem entry_inj {k1 v1 k2 v2 : String} (h1 : '=' ∉ k1.data) (h2 : '=' ∉ k2.data)
    (he : (k1 ++ "=" ++ v1).data = (k2 ++ "=" ++ v2).data) : k1 = k2 ∧ v1 = v2 := by
  rw [entry_data k1 v1, entry_data k2 v2] at he
  have := append_cons_sep_inj k1.data k2.data v1.data v2.data h1 h2 he
  exact ⟨String.ext this.1, String.ext this.2⟩

theorem map_inj_mem {α β : Type} {f : α → β} :
    ∀ {l1 l2 : List α}, (∀ a ∈ l1, ∀ b ∈ l2, f a = f b → a = b) →
      l1.map f = l2.map f → l1 = l2
  | [], [], _, _ => rfl
  | [], _ :: _, _, h => by simp at h
  | _ :: _, [], _, h => by simp at h
  | a :: l1, b :: l2, hinj, h => by
      simp only [List.map_cons, List.cons.injEq] at h
      have hab : a = b := hinj a (List.mem_cons_self a l1) b (List.mem_cons_self b l2) h.1
      have : l1 = l2 := map_inj_mem
        (fun x hx y hy => hinj x (List.mem_cons_of_mem a hx) y (List.mem_cons_of_mem b hy))
        h.2
      rw [hab, this]

/-- Strict entry order: key order plus distinct keys.  On any list of
entries with pairwise-distinct keys it coincides with the sorted order,
and it is vacuously antisymmetric. -/
def keyStrict (a b : String × String) : Prop := keyLeP a b ∧ a.1 ≠ b.1

instance : IsAntisymm (String × String) keyStrict :=
  ⟨fun a _ h1 h2 => absurd (strLe_antisymm h1.1 h2.1) h1.2⟩

theorem pairwise_keyStrict {l : Obj} (hs : List.Pairwise keyLeP l)
    (hn : (objKeys l).Nodup) : List.Pairwise keyStrict l := by
  have hne : List.Pairwise (fun a b : String × String => a.1 ≠ b.1) l :=
    List.pairwise_map.mp hn
  exact (hs.and hne).imp (fun h => ⟨h.1, h.2⟩)

/-- A payload entry that cannot collide with the canonical separators:
no ampersand anywhere and no equals sign in the key. -/
def wfEntry (kv : String × String) : Prop :=
  '&' ∉ kv.1.data ∧ '=' ∉ kv.1.data ∧ '&' ∉ kv.2.data

instance (kv : String × String) : Decidable (wfEntry kv) := by
  unfold wfEntry
  infer_instance

theorem eq_of_perm_of_sorted_keyStrict {l1 l2 : Obj} (hp : l1.Perm l2)
    (h1 : List.Sorted keyStrict l1) (h2 : List.Sorted keyStrict l2) : l1 = l2 :=
  List.eq_of_perm_of_sorted hp h1 h2

theorem timestamp_key_amp_free : '&' ∉ ("timestamp" : String).data := by decide

theorem timestamp_key_eq_free : '=' ∉ ("timestamp" : String).data := by decide

/-- C2 (amended): the code's canonicalization is injective on well-formed
inputs.  `stringToSign (objInsert payload "timestamp" ts)` is exactly the
string `prepareHeaders` signs; for payloads with pairwise-distinct keys,
no `timestamp` key, no `&` in keys or values and no `=` in keys, and
timestamps free of `&`, equal strings-to-sign force equal payload
contents (equal sorted entry lists) and equal timestamps.  Values
embedding `&`/`=` or a caller-supplied `timestamp` key genuinely alias
(see the counterexample), so the claim holds only under these
restrictions; distinctness of the HMAC digests themselves is a
cryptographic assumption outside the embedding. -/
theorem canonicalization_injective_on_wellformed (m1 m2 : Obj) (ts1 ts2 : String)
    (h1n : (objKeys m1).Nodup) (h2n : (objKeys m2).Nodup)
    (h1t : "timestamp" ∉ objKeys m1) (h2t : "timestamp" ∉ objKeys m2)
    (h1w : ∀ kv ∈ m1, wfEntry kv) (h2w : ∀ kv ∈ m2, wfEntry kv)
    (ht1 : '&' ∉ ts1.data) (ht2 : '&' ∉ ts2.data)
    (heq : stringToSign (objInsert m1 "timestamp" ts1) =
      stringToSign (objInsert m2 "timestamp" ts2)) :
    sortPairs m1 = sortPairs m2 ∧ ts1 = ts2 := by
  have heq2 : joinAmp ((sortPairs (objInsert m1 "timestamp" ts1)).map
        (fun kv => kv.1 ++ "=" ++ kv.2)) =
      joinAmp ((sortPairs (objInsert m2 "timestamp" ts2)).map
        (fun kv => kv.1 ++ "=" ++ kv.2)) := by
    rw [← stringToSign_eq_entryJoin (nodup_keys_objInsert h1n),
        ← stringToSign_eq_entryJoin (nodup_keys_objInsert h2n)]
    exact heq
  have e1 : objInsert m1 "timestamp" ts1 = m1 ++ [("timestamp", ts1)] :=
    objInsert_not_mem ts1 h1t
  have e2 : objInsert m2 "timestamp" ts2 = m2 ++ [("timestamp", ts2)] :=
    objInsert_not_mem ts2 h2t
  have mem1 : ∀ kv : String × String, kv ∈ sortPairs (objInsert m1 "timestamp" ts1) ↔
      kv ∈ m1 ∨ kv = ("timestamp", ts1) := by
    intro kv
    rw [mem_sortPairs, e1, List.mem_append, List.mem_singleton]
  have mem2 : ∀ kv : String × String, kv ∈ sortPairs (objInsert m2 "timestamp" ts2) ↔
      kv ∈ m2 ∨ kv = ("timestamp", ts2) := by
    intro kv
    rw [mem_sortPairs, e2, List.mem_append, List.mem_singleton]
  have htsmem1 : ("timestamp", ts1) ∈ sortPairs (objInsert m1 "timestamp" ts1) :=
    (mem1 _).mpr (Or.inr rfl)
  have hkeq1 : ∀ kv : String × String, kv ∈ sortPairs (objInsert m1 "timestamp" ts1) →
      '=' ∉ kv.1.data := by
    intro kv hkv
    rcases (mem1 kv).mp hkv with h | rfl
    · exact (h1w kv h).2.1
    · exact timestamp_key_eq_free
  have hkeq2 : ∀ kv : String × String, kv ∈ sortPairs (objInsert m2 "timestamp" ts2) →
      '=' ∉ kv.1.data := by
    intro kv hkv
    rcases (mem2 kv).mp hkv with h | rfl
    · exact (h2w kv h).2.1
    · exact timestamp_key_eq_free
  have hdata := congrArg String.data heq2
  rw [joinAmp_data, joinAmp_data] at hdata
  have hfree1 : ∀ l ∈ ((sortPairs (objInsert m1 "timestamp" ts1)).map
      (fun kv => kv.1 ++ "=" ++ kv.2)).map String.data, '&' ∉ l := by
    intro l hl
    rcases List.mem_map.mp hl with ⟨s, hs, rfl⟩
    rcases List.mem_map.mp hs with ⟨kv, hkv, rfl⟩
    rw [entry_data]
    intro hmem
    rcases List.mem_append.mp hmem with hm | hm
    · rcases (mem1 kv).mp hkv with h | rfl
      · exact (h1w kv h).1 hm
      · exact absurd hm timestamp_key_amp_free
    · rcases List.mem_cons.mp hm with hm2 | hm2
      · exact absurd hm2 (by decide)
      · rcases (mem1 kv).mp hkv with h | rfl
        · exact (h1w kv h).2.2 hm2
        · exact ht1 hm2
  have hfree2 : ∀ l ∈ ((sortPairs (objInsert m2 "timestamp" ts2)).map
      (fun kv => kv.1 ++ "=" ++ kv.2)).map String.data, '&' ∉ l := by
    intro l hl
    rcases List.mem_map.mp hl with ⟨s, hs, rfl⟩
    rcases List.mem_map.mp hs with ⟨kv, hkv, rfl⟩
    rw [entry_data]
    intro hmem
    rcases List.mem_append.mp hmem with hm | hm
    · rcases (mem2 kv).mp hkv with h | rfl
      · exact (h2w kv h).1 hm
      · exact absurd hm timestamp_key_amp_free
    · rcases List.mem_cons.mp hm with hm2 | hm2
      · exact absurd hm2 (by decide)
      · rcases (mem2 kv).mp hkv with h | rfl
        · exact (h2w kv h).2.2 hm2
        · exact ht2 hm2
  have hne1 : ((sortPairs (objInsert m1 "timestamp" ts1)).map
      (fun kv => kv.1 ++ "=" ++ kv.2)).map String.data ≠ [] := by
    simp only [ne_eq, List.map_eq_nil_iff]
    intro h
    rw [h] at htsmem1
    exact absurd htsmem1 (List.not_mem_nil _)
  have hne2 : ((sortPairs (objInsert m2 "timestamp" ts2)).map
      (fun kv => kv.1 ++ "=" ++ kv.2)).map String.data ≠ [] := by
    simp only [ne_eq, List.map_eq_nil_iff]
    intro h
    have := (mem2 ("timestamp", ts2)).mpr (Or.inr rfl)
    rw [h] at this
    exact absurd this (List.not_mem_nil _)
  have hsplit := congrArg (List.splitOn '&') hdata
  rw [List.splitOn_intercalate _ '&' hfree1 hne1,
      List.splitOn_intercalate _ '&' hfree2 hne2] at hsplit
  rw [List.map_map, List.map_map] at hsplit
  have hentries : sortPairs (objInsert m1 "timestamp" ts1) =
      sortPairs (objInsert m2 "timestamp" ts2) := by
    apply map_inj_mem ?_ hsplit
    intro a ha b hb hab
    have hab' := entry_inj (hkeq1 a ha) (hkeq2 b hb) hab
    exact Prod.ext hab'.1 hab'.2
  rw [hentries] at htsmem1
  have hts : ts1 = ts2 := by
    rcases (mem2 _).mp htsmem1 with h | h
    · exact absurd (List.mem_map.mpr ⟨("timestamp", ts1), h, rfl⟩) h2t
    · exact (Prod.mk.injEq _ _ _ _).mp h |>.2
  refine ⟨?_, hts⟩
  have hfilter : ∀ (m : Obj) (ts : String), (objKeys m).Nodup → "timestamp" ∉ objKeys m →
      List.filter (fun kv => decide (kv.1 ≠ "timestamp"))
        (sortPairs (objInsert m "timestamp" ts)) = sortPairs m := by
    intro m ts hn ht
    have em : objInsert m "timestamp" ts = m ++ [("timestamp", ts)] :=
      objInsert_not_mem ts ht
    have hLkeys : (List.map Prod.fst (sortPairs (objInsert m "timestamp" ts))).Nodup :=
      (((sortPairs_perm (objInsert m "timestamp" ts)).map Prod.fst).nodup_iff).mpr
        (nodup_keys_objInsert hn)
    apply eq_of_perm_of_sorted_keyStrict
    · have hpe : List.filter (fun kv => decide (kv.1 ≠ "timestamp"))
          (objInsert m "timestamp" ts) = m := by
        rw [em, List.filter_append]
        have hm : List.filter (fun kv => decide (kv.1 ≠ "timestamp")) m = m := by
          apply List.filter_eq_self.mpr
          intro kv hkv
          simp only [decide_eq_true_eq]
          intro hk
          exact ht (hk ▸ List.mem_map.mpr ⟨kv, hkv, rfl⟩)
        rw [hm]
        simp
      have hperm : (List.filter (fun kv => decide (kv.1 ≠ "timestamp"))
            (sortPairs (objInsert m "timestamp" ts))).Perm
          (List.filter (fun kv => decide (kv.1 ≠ "timestamp"))
            (objInsert m "timestamp" ts)) :=
        (sortPairs_perm _).filter _
      rw [hpe] at hperm
      exact hperm.trans (sortPairs_perm m).symm
    · apply pairwise_keyStrict
      · exact List.Pairwise.sublist (List.filter_sublist _) (sortPairs_sorted _)
      · exact List.Nodup.sublist (List.Sublist.map Prod.fst (List.filter_sublist _)) hLkeys
    · apply pairwise_keyStrict (sortPairs_sorted m)
      exact (((sortPairs_perm m).map Prod.fst).nodup_iff).mpr hn
  have hf1 := hfilter m1 ts1 h1n h1t
  have hf2 := hfilter m2 ts2 h2n h2t
  rw [← hf1, ← hf2, hentries]

theorem strFalsy_none : strFalsy none = true := rfl

theorem strFalsy_some (s : String) : strFalsy (some s) = decide (s = "") := rfl

/-! ## Claim theorems -/

/-- C1: for every payload with distinct keys and every timestamp, the
signature `prepareHeaders` produces equals the lowercase hex HMAC-SHA256,
keyed by the secret key, of the string built by adding a `timestamp` key
holding the epoch-milliseconds string to the payload, sorting all keys
ascending, and joining the entries as `key1=value1&key2=value2&...` with
no escaping (the spec's Variant A), and the `X-Timestamp` header carries
the same epoch-milliseconds string. -/
theorem signature_matches_variantA (apiKey secretKey : String) (payload : Obj) (now : Nat)
    (h : (objKeys payload).Nodup) :
    (prepareHeaders apiKey secretKey payload now).xTimestamp = toString now ∧
    (prepareHeaders apiKey secretKey payload now).xSignature =
      variantASignature secretKey payload (toString now) := by
  refine ⟨rfl, ?_⟩
  have hn := @nodup_keys_objInsert payload "timestamp" (toString now) h
  show generateSignature secretKey (objInsert payload "timestamp" (toString now)) =
    variantASignature secretKey payload (toString now)
  unfold generateSignature variantASignature variantACanonical
  exact congrArg (hmacSha256Hex secretKey) (stringToSign_eq_entryJoin hn)

theorem signature_matches_variantA_witness :
    (objKeys [("amount", "1000"), ("external_id", "abc")]).Nodup ∧
    (prepareHeaders "k" "s" [("amount", "1000"), ("external_id", "abc")] 5).xSignature =
      variantASignature "s" [("amount", "1000"), ("external_id", "abc")] (toString 5) :=
  ⟨by decide,
    (signature_matches_variantA "k" "s" [("amount", "1000"), ("external_id", "abc")] 5
      (by decide)).2⟩

/-- C2 counterexample: the payloads `{a: "1&b=2"}` and `{a: "1", b: "2"}`
are distinct, yet because values are joined with no escaping their
canonical strings at the same timestamp coincide, and hence so do their
signatures: canonicalization as implemented is not injective. -/
theorem canonicalization_aliasing_counterexample :
    ([("a", "1&b=2")] : Obj) ≠ [("a", "1"), ("b", "2")] ∧
    variantACanonical [("a", "1&b=2")] "7" = variantACanonical [("a", "1"), ("b", "2")] "7" ∧
    stringToSign (objInsert [("a", "1&b=2")] "timestamp" "7") =
      stringToSign (objInsert [("a", "1"), ("b", "2")] "timestamp" "7") ∧
    generateSignature "secret" (objInsert [("a", "1&b=2")] "timestamp" "7") =
      generateSignature "secret" (objInsert [("a", "1"), ("b", "2")] "timestamp" "7") ∧
    (prepareHeaders "k" "secret" [("a", "1&b=2")] 7).xSignature =
      (prepareHeaders "k" "secret" [("a", "1"), ("b", "2")] 7).xSignature :=
  ⟨by decide, by decide, by decide, congrArg (hmacSha256Hex "secret") (by decide),
    congrArg (hmacSha256Hex "secret") (by decide)⟩

theorem canonicalization_injective_witness :
    stringToSign (objInsert [("b", "2"), ("a", "1")] "timestamp" "5") =
      stringToSign (objInsert [("a", "1"), ("b", "2")] "timestamp" "5") ∧
    (sortPairs [("b", "2"), ("a", "1")] = sortPairs [("a", "1"), ("b", "2")] ∧
      ("5" : String) = "5") :=
  ⟨by decide,
    canonicalization_injective_on_wellformed [("b", "2"), ("a", "1")] [("a", "1"), ("b", "2")]
      "5" "5" (by decide) (by decide) (by decide) (by decide) (by decide) (by decide)
      (by decide) (by decide) (by decide)⟩

/-- C3: with the 60000 ms interval, a request with no stored record or
with elapsed time at least the interval is allowed and the store is
overwritten with the current time under a 60-second
(`ceil(intervalMs/1000)`) expiry; otherwise it is denied with
`retryAfterSeconds = ceil((intervalMs - elapsed)/1000)`.  In particular a
first request at t=0 is allowed, a second at t=30000 is denied with 30
seconds to wait, and a third at t=61000 is allowed. -/
theorem rate_limiter_spec (last now : Nat) (hle : last ≤ now) :
    rateLimitStep none now =
      { allowed := true, retryAfterSeconds := none, write := some (now, 60) } ∧
    (RATE_LIMIT_INTERVAL ≤ now - last →
      rateLimitStep (some last) now =
        { allowed := true, retryAfterSeconds := none, write := some (now, 60) }) ∧
    (now - last < RATE_LIMIT_INTERVAL →
      rateLimitStep (some last) now =
        { allowed := false
          retryAfterSeconds := some ((RATE_LIMIT_INTERVAL - (now - last) + 999) / 1000)
          write := none }) ∧
    rateLimitStep none 0 =
      { allowed := true, retryAfterSeconds := none, write := some (0, 60) } ∧
    rateLimitStep (some 0) 30000 =
      { allowed := false, retryAfterSeconds := some 30, write := none } ∧
    rateLimitStep (some 0) 61000 =
      { allowed := true, retryAfterSeconds := none, write := some (61000, 60) } := by
  refine ⟨?_, ?_, ?_, by decide, by decide, by decide⟩
  · simp [rateLimitStep, RATE_LIMIT_INTERVAL]
  · intro hge
    rw [rateLimitStep]
    rw [if_neg (by omega)]
    simp [RATE_LIMIT_INTERVAL]
  · intro hlt
    rw [rateLimitStep]
    rw [if_pos hlt]

theorem rate_limiter_spec_witness :
    (0 : Nat) ≤ 30000 ∧ 30000 - 0 < RATE_LIMIT_INTERVAL ∧
    rateLimitStep (some 0) 30000 =
      { allowed := false
        retryAfterSeconds := some ((RATE_LIMIT_INTERVAL - (30000 - 0) + 999) / 1000)
        write := none } :=
  ⟨by decide, by decide, (rate_limiter_spec 0 30000 (by decide)).2.2.1 (by decide)⟩

/-- C4 counterexample: a POST to the creation handler whose body lacks
`external_id` is not answered with 400 — no validation exists — and the
outbound gateway call is made anyway, forwarding the invalid body. -/
theorem create_missing_field_counterexample :
    lookupObj [("amount", "1000")] "external_id" = none ∧
    (createTransactionHandler .POST none "1.2.3.4" [("amount", "1000")] none 0
      ⟨some "k", some "s"⟩ (.success [("id", "tx1")])).gatewayCalled = true ∧
    (createTransactionHandler .POST none "1.2.3.4" [("amount", "1000")] none 0
      ⟨some "k", some "s"⟩ (.success [("id", "tx1")])).status = 200 :=
  ⟨by decide, by decide, by decide⟩

/-- C4 (amended): the creation handler performs no validation of the
request body: once past the method and rate-limit checks with credentials
configured, the gateway call is attempted for every body — one missing
`external_id` included — the body is forwarded verbatim, and the
response is independent of the body.  Only the cancel handler validates
its input, answering 400 with no gateway call when `id` is missing. -/
theorem create_handler_no_validation (body body2 : Obj) (ff : Option String) (addr : String)
    (now : Nat) (env : Env) (gw : GatewayOutcome)
    (h1 : strFalsy env.apiKey = false) (h2 : strFalsy env.secretKey = false) :
    (createTransactionHandler .POST ff addr body none now env gw).gatewayCalled = true ∧
    (createTransactionHandler .POST ff addr body none now env gw).gatewayPayload = some body ∧
    (createTransactionHandler .POST ff addr body none now env gw).status =
      (createTransactionHandler .POST ff addr body2 none now env gw).status ∧
    (cancelTransactionHandler .POST none env gw).status = 400 ∧
    (cancelTransactionHandler .POST none env gw).gatewayCalled = false := by
  refine ⟨?_, ?_, ?_, ?_, ?_⟩
  · cases gw <;> simp [createTransactionHandler, rateLimitStep, h1, h2]
  · cases gw <;> simp [createTransactionHandler, rateLimitStep, h1, h2]
  · cases gw <;> simp [createTransactionHandler, rateLimitStep, h1, h2]
  · simp [cancelTransactionHandler, strFalsy_none]
  · simp [cancelTransactionHandler, strFalsy_none]

theorem create_handler_no_validation_witness :
    strFalsy (some "k") = false ∧
    (createTransactionHandler .POST none "1.2.3.4" [("amount", "1000")] none 0
      ⟨some "k", some "s"⟩ (.failure none "boom")).gatewayCalled = true :=
  ⟨by decide,
    (create_handler_no_validation [("amount", "1000")] [] none "1.2.3.4" 0
      ⟨some "k", some "s"⟩ (.failure none "boom") (by decide) (by decide)).1⟩

/-- C5 counterexample: an OPTIONS request to the cancel-transaction
handler is answered 405, not 200 — its method check runs before any
OPTIONS short-circuit, so the claim fails for that handler. -/
theorem cancel_options_counterexample :
    (cancelTransactionHandler .OPTIONS (some "tx1") ⟨some "k", some "s"⟩
      (.success [])).status = 405 ∧
    ¬ (cancelTransactionHandler .OPTIONS (some "tx1") ⟨some "k", some "s"⟩
      (.success [])).status = 200 :=
  ⟨by decide, by decide⟩

/-- C5 (amended): the creation handler short-circuits every OPTIONS
request with status 200, CORS headers set, an empty body, and no store
write or gateway call; the cancel-transaction handler instead answers
OPTIONS with 405 (Method Not Allowed), CORS headers set and no gateway
call. -/
theorem options_preflight_behavior (ff : Option String) (addr : String) (reqBody : Obj)
    (stored : Option Nat) (now : Nat) (env : Env) (gw : GatewayOutcome)
    (idQuery : Option String) :
    createTransactionHandler .OPTIONS ff addr reqBody stored now env gw =
      { status := 200, body := .empty, corsSet := true, retryAfter := none
        storeWrite := none, gatewayCalled := false, gatewayPayload := none } ∧
    cancelTransactionHandler .OPTIONS idQuery env gw =
      { status := 405, body := .errorJson "Method Not Allowed", corsSet := true
        retryAfter := none, storeWrite := none, gatewayCalled := false
        gatewayPayload := none } :=
  ⟨rfl, rfl⟩

/-- C6 counterexample: when the gateway call fails with an available
status code 404, the cancel-transaction handler still answers 500 — it
never propagates the gateway's status code, contradicting the claim for
that handler. -/
theorem cancel_error_status_counterexample :
    (cancelTransactionHandler .POST (some "tx1") ⟨some "k", some "s"⟩
      (.failure (some 404) "Not Found")).status = 500 ∧
    ¬ (cancelTransactionHandler .POST (some "tx1") ⟨some "k", some "s"⟩
      (.failure (some 404) "Not Found")).status = 404 :=
  ⟨by decide, by decide⟩

/-- C6 (amended): on gateway failure the creation handler answers with
`error.statusCode || 500` and the error's message (with the
`Internal Server Error` fallback); the cancel-transaction handler always
answers 500 with the error's message, ignoring any available status
code. -/
theorem gateway_error_propagation (body : Obj) (ff : Option String) (addr : String)
    (now : Nat) (env : Env) (sc : Option Nat) (msg idv : String)
    (h1 : strFalsy env.apiKey = false) (h2 : strFalsy env.secretKey = false)
    (hmsg : msg ≠ "") (hid : idv ≠ "") :
    (createTransactionHandler .POST ff addr body none now env (.failure sc msg)).status =
      jsOr sc 500 ∧
    (createTransactionHandler .POST ff addr body none now env (.failure sc msg)).body =
      .errorJson msg ∧
    (cancelTransactionHandler .POST (some idv) env (.failure sc msg)).status = 500 ∧
    (cancelTransactionHandler .POST (some idv) env (.failure sc msg)).body =
      .errorJson msg := by
  refine ⟨?_, ?_, ?_, ?_⟩
  · simp [createTransactionHandler, rateLimitStep, h1, h2]
  · simp [createTransactionHandler, rateLimitStep, h1, h2, hmsg]
  · simp [cancelTransactionHandler, strFalsy_some, hid, h1, h2]
  · simp [cancelTransactionHandler, strFalsy_some, hid, h1, h2]

theorem gateway_error_propagation_witness :
    strFalsy (some "k") = false ∧ ("Not Found" : String) ≠ "" ∧
    (cancelTransactionHandler .POST (some "tx9") ⟨some "k", some "s"⟩
      (.failure (some 404) "Not Found")).status = 500 :=
  ⟨by decide, by decide,
    (gateway_error_propagation [] none "1.2.3.4" 0 ⟨some "k", some "s"⟩ (some 404)
      "Not Found" "tx9" (by decide) (by decide) (by decide) (by decide)).2.2.1⟩

/-- C7: constructing the gateway client with an absent or empty apiKey or
secretKey raises the configuration error, synchronously and purely from
the configuration — in a handler with such an environment the gateway
call is never attempted; with both keys non-empty, construction succeeds
with the given keys and the default base URL. -/
theorem construction_requires_keys (a s b : Option String) (reqBody : Obj)
    (ff : Option String) (addr : String) (stored : Option Nat) (now : Nat)
    (gw : GatewayOutcome) (method : Method) :
    isConfigError (mkPaykuClient a s b) = (strFalsy a || strFalsy s) ∧
    ((strFalsy a || strFalsy s) = false → mkPaykuClient a s b =
      .ok { apiKey := a.getD "", secretKey := s.getD ""
            baseURL := b.getD "https://payku.my.id/api" }) ∧
    ((strFalsy a || strFalsy s) = true →
      (createTransactionHandler method ff addr reqBody stored now ⟨a, s⟩ gw).gatewayCalled
        = false ∧
      (cancelTransactionHandler method (some "tx1") ⟨a, s⟩ gw).gatewayCalled = false) := by
  refine ⟨?_, ?_, ?_⟩
  · by_cases hf : (strFalsy a || strFalsy s) = true
    · simp [mkPaykuClient, hf, isConfigError]
    · simp only [Bool.not_eq_true] at hf
      simp [mkPaykuClient, hf, isConfigError]
  · intro hf
    simp [mkPaykuClient, hf]
  · intro hf
    rw [Bool.or_eq_true] at hf
    constructor
    · cases method <;> try simp [createTransactionHandler]
      cases stored with
      | none => simp [createTransactionHandler, rateLimitStep, hf]
      | some last =>
          by_cases hlt : now - last < RATE_LIMIT_INTERVAL
          · simp [createTransactionHandler, rateLimitStep, hlt]
          · simp [createTransactionHandler, rateLimitStep, hlt, hf]
    · cases method <;> simp [cancelTransactionHandler, strFalsy_some, hf]

theorem construction_requires_keys_witness :
    (strFalsy (some "") || strFalsy (some "s")) = true ∧
    (createTransactionHandler .POST none "1.2.3.4" [] none 0 ⟨some "", some "s"⟩
      (.success [])).gatewayCalled = false :=
  ⟨by decide,
    ((construction_requires_keys (some "") (some "s") none [] none "1.2.3.4" none 0
      (.success []) .POST).2.2 (by decide)).1⟩

/-- C8: when the caller's payload already holds a `timestamp` key,
`prepareHeaders` signs a copy in which that value is replaced by the
freshly generated timestamp — the same value sent in `X-Timestamp` —
while the POST operations still transmit the original payload with the
caller's old timestamp value, so the signed copy and the transmitted
body disagree on that field whenever the values differ. -/
theorem timestamp_overwritten_in_signing (c : PaykuClient) (data : Obj) (old : String)
    (now : Nat) (h : lookupObj data "timestamp" = some old) :
    (prepareHeaders c.apiKey c.secretKey data now).xTimestamp = toString now ∧
    (prepareHeaders c.apiKey c.secretKey data now).xSignature =
      generateSignature c.secretKey (objInsert data "timestamp" (toString now)) ∧
    lookupObj (objInsert data "timestamp" (toString now)) "timestamp" =
      some (toString now) ∧
    (PaykuClient.createTransaction c data now).body = some data ∧
    (PaykuClient.withdraw c data now).body = some data ∧
    (PaykuClient.transfer c data now).body = some data ∧
    lookupObj data "timestamp" = some old :=
  ⟨rfl, rfl, lookupObj_objInsert_self data "timestamp" (toString now), rfl, rfl, rfl, h⟩

theorem timestamp_overwritten_in_signing_witness :
    lookupObj [("timestamp", "111"), ("amount", "5")] "timestamp" = some "111" ∧
    lookupObj (objInsert [("timestamp", "111"), ("amount", "5")] "timestamp" (toString 7))
      "timestamp" = some (toString 7) :=
  ⟨by decide,
    (timestamp_overwritten_in_signing ⟨"k", "s", "u"⟩ [("timestamp", "111"), ("amount", "5")]
      "111" 7 (by decide)).2.2.1⟩

/-- C9: a creation-handler request that passes the rate-limit check
writes the rate-limit record (current time, 60-second TTL) before the
client is constructed or the gateway is called — the write is present in
the result for every environment and every gateway outcome, failures
included — so a second request from the same identity within the
interval is denied with 429, a `Retry-After` hint and no gateway call:
the failed request still consumes the window. -/
theorem failed_call_consumes_rate_window (ff : Option String) (addr : String)
    (body1 body2 : Obj) (now d : Nat) (env1 env2 : Env) (gw1 gw2 : GatewayOutcome)
    (hd : d < RATE_LIMIT_INTERVAL) :
    (createTransactionHandler .POST ff addr body1 none now env1 gw1).storeWrite =
      some ("rate_limit:" ++ identityOf ff addr, now, 60) ∧
    (createTransactionHandler .POST ff addr body2 (some now) (now + d) env2 gw2).status
      = 429 ∧
    (createTransactionHandler .POST ff addr body2 (some now) (now + d) env2 gw2).gatewayCalled
      = false ∧
    (createTransactionHandler .POST ff addr body2 (some now) (now + d) env2 gw2).retryAfter
      = some ((RATE_LIMIT_INTERVAL - d + 999) / 1000) := by
  have hzero : now + d - now = d := by omega
  refine ⟨?_, ?_, ?_, ?_⟩
  · by_cases hf : (strFalsy env1.apiKey || strFalsy env1.secretKey) = true
    · rw [Bool.or_eq_true] at hf
      simp [createTransactionHandler, rateLimitStep, hf, RATE_LIMIT_INTERVAL]
    · rw [Bool.or_eq_true] at hf
      push_neg at hf
      simp only [Bool.not_eq_true] at hf
      cases gw1 <;>
        simp [createTransactionHandler, rateLimitStep, hf.1, hf.2, RATE_LIMIT_INTERVAL]
  · simp [createTransactionHandler, rateLimitStep, hzero, hd]
  · simp [createTransactionHandler, rateLimitStep, hzero, hd]
  · simp [createTransactionHandler, rateLimitStep, hzero, hd]

theorem failed_call_consumes_rate_window_witness :
    30000 < RATE_LIMIT_INTERVAL ∧
    (createTransactionHandler .POST none "1.2.3.4" [] (some 100) (100 + 30000)
      ⟨some "k2", some "s2"⟩ (.success [])).status = 429 :=
  ⟨by decide,
    (failed_call_consumes_rate_window none "1.2.3.4" [] [] 100 30000 ⟨some "", none⟩
      ⟨some "k2", some "s2"⟩ (.failure none "network down") (.success [])
      (by decide)).2.1⟩

/-- C10: the signing path never alters the payload it is given: every
POST operation transmits exactly the caller's object as the body — the
`timestamp` field added for signing lives only in the signed copy — and
when the caller supplied no `timestamp` key the transmitted body has
none, while the signing copy appends one. -/
theorem payload_not_mutated (c : PaykuClient) (data : Obj) (tid : String) (now : Nat)
    (h : "timestamp" ∉ objKeys data) :
    (PaykuClient.createTransaction c data now).body = some data ∧
    (PaykuClient.withdraw c data now).body = some data ∧
    (PaykuClient.transfer c data now).body = some data ∧
    (PaykuClient.cancelTransaction c tid now).body = some [("transaction_id", tid)] ∧
    lookupObj data "timestamp" = none ∧
    objKeys (objInsert data "timestamp" (toString now)) = objKeys data ++ ["timestamp"] := by
  refine ⟨rfl, rfl, rfl, rfl, lookupObj_eq_none h, ?_⟩
  rw [objInsert_not_mem (toString now) h]
  simp [objKeys]

theorem payload_not_mutated_witness :
    "timestamp" ∉ objKeys [("amount", "9")] ∧
    (PaykuClient.createTransaction ⟨"k", "s", "u"⟩ [("amount", "9")] 3).body =
      some [("amount", "9")] ∧
    lookupObj [("amount", "9")] "timestamp" = none :=
  ⟨by decide,
    (payload_not_mutated ⟨"k", "s", "u"⟩ [("amount", "9")] "t1" 3 (by decide)).1,
    (payload_not_mutated ⟨"k", "s", "u"⟩ [("amount", "9")] "t1" 3 (by decide)).2.2.2.2.1⟩
